import Mathlib

/-!
Shallow embedding of the adaptive-learning services
(`conceptExtractionService.js`, `fileAnalysisService.js`, the question
generation service, and the adaptive learning service) together with
proofs of the behavioural claims about them.

JS numbers that are only ever compared and subtracted are modelled as
`Int`; array indices and counts as `Nat`; possibly-`undefined` values as
`Option`; JS objects keyed by strings as functions `String → Option _`;
rejected promises as `Except.error`.
-/

namespace ALP

/-- A per-concept entry of the user-performance map
(`userPerformance[conceptId] = {masteryLevel, attempts}`). -/
structure Perf where
  masteryLevel : Int
  attempts : Int
deriving DecidableEq, Repr

/-- The user-performance map, keyed by concept id; `none` models a key
that is absent from the JS object. -/
def PerfMap : Type := String → Option Perf

/-- A concept as produced by `extractConcepts` (only the fields the
post-processing logic reads are modelled; `difficulty` and
`estimatedTime` are `Option` because the JS code guards them with
optional chaining). -/
structure Concept where
  id : String
  name : String
  difficulty : Option String
  prerequisites : List String
  subConcepts : List String
  estimatedTime : Option String
deriving DecidableEq, Repr

/-- Embeds `difficultyOrder?.[a?.difficulty] || 2` from
`sortConceptsByDependency`: Beginner 1, Intermediate 2, Advanced 3, and
any other (or absent) difficulty string falls back to 2. -/
def diffRank (c : Concept) : Nat :=
  match c.difficulty with
  | some s =>
    if s = "Beginner" then 1
    else if s = "Intermediate" then 2
    else if s = "Advanced" then 3
    else 2
  | none => 2

/-- The comparator passed to `concepts.sort` in `sortConceptsByDependency`:
difficulty-rank difference, tie-broken by prerequisite-count difference
(`a?.prerequisites?.length || 0`). -/
def conceptCompare (a b : Concept) : Int :=
  if diffRank a ≠ diffRank b then (diffRank a : Int) - (diffRank b : Int)
  else (a.prerequisites.length : Int) - (b.prerequisites.length : Int)

/-- The non-strict order induced by `conceptCompare` (JS `sort` places `a`
no later than `b` when the comparator is `≤ 0`). -/
def conceptLE (a b : Concept) : Bool :=
  decide (conceptCompare a b ≤ 0)

/-- Embeds `sortConceptsByDependency`: `Array.prototype.sort` with a
consistent comparator is a stable sort by the induced preorder, which is
exactly `List.mergeSort`. -/
def sortConceptsByDependency (concepts : List Concept) : List Concept :=
  concepts.mergeSort conceptLE

theorem conceptLE_iff (a b : Concept) :
    conceptLE a b = true ↔
      (diffRank a < diffRank b ∨
        (diffRank a = diffRank b ∧ a.prerequisites.length ≤ b.prerequisites.length)) := by
  unfold conceptLE conceptCompare
  by_cases h : diffRank a = diffRank b
  · simp [h]
  · simp [h]
    omega

theorem conceptLE_trans (a b c : Concept) :
    conceptLE a b → conceptLE b c → conceptLE a c := by
  intro hab hbc
  rw [conceptLE_iff] at hab hbc ⊢
  omega

theorem conceptLE_total (a b : Concept) : conceptLE a b || conceptLE b a := by
  rw [Bool.or_eq_true, conceptLE_iff, conceptLE_iff]
  omega

/-- The mastery level the services read for a concept:
`userPerformance?.[concept?.id] || { masteryLevel: 0 }`, then
`.masteryLevel`. -/
def masteryOf (perf : PerfMap) (c : Concept) : Int :=
  (((perf c.id).getD ⟨0, 0⟩)).masteryLevel

/-- The filter predicate of `identifyWeakAreas`:
`performance.masteryLevel < 70 || performance.attempts === 0`, with the
absent-entry default `{ masteryLevel: 0, attempts: 0 }`. -/
def isWeakConcept (perf : PerfMap) (c : Concept) : Bool :=
  let p := (perf c.id).getD ⟨0, 0⟩
  decide (p.masteryLevel < 70) || decide (p.attempts = 0)

/-- The ascending comparator of `identifyWeakAreas`:
`perfA?.masteryLevel - perfB?.masteryLevel`. -/
def weakLE (perf : PerfMap) (a b : Concept) : Bool :=
  decide (masteryOf perf a - masteryOf perf b ≤ 0)

/-- The descending comparator of `identifyStrongAreas`:
`perfB?.masteryLevel - perfA?.masteryLevel`. -/
def strongLE (perf : PerfMap) (a b : Concept) : Bool :=
  decide (masteryOf perf b - masteryOf perf a ≤ 0)

/-- Embeds `identifyWeakAreas`: filter the concepts the user has not
mastered (or never attempted), then stable-sort ascending by mastery. -/
def identifyWeakAreas (concepts : List Concept) (perf : PerfMap) : List Concept :=
  (concepts.filter (isWeakConcept perf)).mergeSort (weakLE perf)

/-- The filter predicate of `identifyStrongAreas`:
`performance.masteryLevel >= 80` with default `{ masteryLevel: 0 }`. -/
def isStrongConcept (perf : PerfMap) (c : Concept) : Bool :=
  decide (80 ≤ masteryOf perf c)

/-- Embeds `identifyStrongAreas`: filter mastery ≥ 80, then stable-sort
descending by mastery. -/
def identifyStrongAreas (concepts : List Concept) (perf : PerfMap) : List Concept :=
  (concepts.filter (isStrongConcept perf)).mergeSort (strongLE perf)

/-- Embeds `adjustDifficultyForPerformance`: bucket the recorded mastery
level (absent entries default to 0) at the 40 and 70 boundaries. -/
def adjustDifficultyForPerformance (c : Concept) (perf : PerfMap) : String :=
  let p := (perf c.id).getD ⟨0, 0⟩
  if p.masteryLevel < 40 then "Beginner"
  else if p.masteryLevel < 70 then "Intermediate"
  else "Advanced"

theorem weakLE_trans (perf : PerfMap) (a b c : Concept) :
    weakLE perf a b → weakLE perf b c → weakLE perf a c := by
  unfold weakLE
  intro hab hbc
  simp only [decide_eq_true_eq] at hab hbc ⊢
  omega

theorem weakLE_total (perf : PerfMap) (a b : Concept) :
    weakLE perf a b || weakLE perf b a := by
  unfold weakLE
  rw [Bool.or_eq_true]
  simp only [decide_eq_true_eq]
  omega

theorem strongLE_trans (perf : PerfMap) (a b c : Concept) :
    strongLE perf a b → strongLE perf b c → strongLE perf a c := by
  unfold strongLE
  intro hab hbc
  simp only [decide_eq_true_eq] at hab hbc ⊢
  omega

theorem strongLE_total (perf : PerfMap) (a b : Concept) :
    strongLE perf a b || strongLE perf b a := by
  unfold strongLE
  rw [Bool.or_eq_true]
  simp only [decide_eq_true_eq]
  omega

/-- Decimal value of a digit run, as computed by JS `parseInt` on a
string of ASCII digits. -/
def digitsToNat (ds : List Char) : Nat :=
  ds.foldl (fun n c => n * 10 + (c.toNat - '0'.toNat)) 0

/-- Tries to match the case-insensitive alternation `min|hour|hr` at the
start of `cs`, returning the matched characters.  (Which alternative can
match at a given position is unambiguous, so alternation order does not
matter.) -/
def matchUnitAt (cs : List Char) : Option (List Char) :=
  if (cs.take 3).map Char.toLower = ['m', 'i', 'n'] then some (cs.take 3)
  else if (cs.take 4).map Char.toLower = ['h', 'o', 'u', 'r'] then some (cs.take 4)
  else if (cs.take 2).map Char.toLower = ['h', 'r'] then some (cs.take 2)
  else none

/-- Tries to match `(\d+)\s*(min|hour|hr)` (case-insensitive) anchored at
the start of `cs`, returning capture 1 as a number and capture 2 as the
matched characters.  Greedy `\d+` and `\s*` never need to backtrack here
because the unit literals start with a letter, so maximal munch is exact. -/
def matchTimeAt (cs : List Char) : Option (Nat × List Char) :=
  if (cs.takeWhile Char.isDigit).isEmpty then none
  else
    match matchUnitAt ((cs.dropWhile Char.isDigit).dropWhile Char.isWhitespace) with
    | some u => some (digitsToNat (cs.takeWhile Char.isDigit), u)
    | none => none

/-- Leftmost match of `(\d+)\s*(min|hour|hr)` (case-insensitive), as
found by `String.prototype.match` without the global flag. -/
def findTimeMatch : List Char → Option (Nat × List Char)
  | [] => none
  | c :: rest =>
    match matchTimeAt (c :: rest) with
    | some r => some r
    | none => findTimeMatch rest

/-- JS `haystack.includes(needle)` on character lists: `needle` occurs
contiguously inside `haystack`. -/
def listIncludes (hay pat : List Char) : Bool :=
  decide (List.IsInfix pat hay)

/-- Embeds `parseTimeToMinutes`: `none` models a missing argument and
`""` is falsy, both short-circuiting to the 15-minute default; otherwise
the first `(\d+)\s*(min|hour|hr)` match decides the result through the
`unit?.includes('hour') || unit?.includes('hr')` test on the lowercased
unit capture. -/
def parseTimeToMinutes (timeString : Option String) : Nat :=
  match timeString with
  | none => 15
  | some s =>
    if s = "" then 15
    else
      match findTimeMatch s.toList with
      | none => 15
      | some (value, unit) =>
        if (listIncludes (unit.map Char.toLower) "hour".toList ||
            listIncludes (unit.map Char.toLower) "hr".toList) then value * 60
        else value

/-- Embeds `formatMinutesToTime` with `Nat` division and remainder for
`Math.floor(minutes / 60)` and `minutes % 60`. -/
def formatMinutesToTime (minutes : Nat) : String :=
  if minutes < 60 then toString minutes ++ " min"
  else
    let hours := minutes / 60
    let remainingMinutes := minutes % 60
    if remainingMinutes = 0 then
      toString hours ++ " hour" ++ (if hours > 1 then "s" else "")
    else
      toString hours ++ "h " ++ toString remainingMinutes ++ "min"

/-- Case-insensitive JS `includes`:
`hay?.toLowerCase()?.includes(pat?.toLowerCase())`. -/
def includesCI (hay pat : String) : Bool :=
  listIncludes (hay.toList.map Char.toLower) (pat.toList.map Char.toLower)

/-- Embeds `findDependencies`: ids of the other concepts whose name or
sub-concepts fuzzily (case-insensitive substring) contain one of this
concept's prerequisite strings. -/
def findDependencies (concept : Concept) (allConcepts : List Concept) : List String :=
  if concept.prerequisites.isEmpty then []
  else
    (allConcepts.filter (fun other =>
      decide (other.id ≠ concept.id) &&
        concept.prerequisites.any (fun prereq =>
          includesCI other.name prereq ||
            other.subConcepts.any (fun sub => includesCI sub prereq)))).map (fun dep => dep.id)

/-- The fixed-shape difficulty tally of `calculateDifficultyDistribution`. -/
structure Dist where
  beginner : Nat
  intermediate : Nat
  advanced : Nat
deriving DecidableEq, Repr

/-- Embeds `calculateDifficultyDistribution`: count only the three
canonical labels, silently dropping anything else. -/
def calculateDifficultyDistribution (concepts : List Concept) : Dist :=
  ⟨concepts.countP (fun c => decide (c.difficulty = some "Beginner")),
    concepts.countP (fun c => decide (c.difficulty = some "Intermediate")),
    concepts.countP (fun c => decide (c.difficulty = some "Advanced"))⟩

/-- One entry of the learning pathway: the spread concept plus the
`order`, `isUnlocked` and `dependencies` annotations. -/
structure PathwayItem where
  concept : Concept
  order : Nat
  isUnlocked : Bool
  dependencies : List String
deriving DecidableEq, Repr

/-- The return shape of `createLearningPathway`; `totalConcepts` and
`difficultyDistribution` are `none` on the early empty return, where the
JS object simply lacks those fields. -/
structure Pathway where
  pathway : List PathwayItem
  totalEstimatedTime : String
  totalConcepts : Option Nat
  difficultyDistribution : Option Dist
deriving DecidableEq, Repr

/-- Embeds `createLearningPathway`; the argument is `Option` so that a
missing (`undefined`) concept list, which the `!concepts?.length` guard
also sends to the empty result, is representable. -/
def createLearningPathway (concepts : Option (List Concept)) : Pathway :=
  match concepts with
  | none => ⟨[], "0 min", none, none⟩
  | some cs =>
    if cs.isEmpty then ⟨[], "0 min", none, none⟩
    else
      let sortedConcepts := sortConceptsByDependency cs
      let totalMinutes :=
        sortedConcepts.foldl (fun total c => total + parseTimeToMinutes c.estimatedTime) 0
      ⟨sortedConcepts.enum.map (fun p =>
          ⟨p.2, p.1 + 1, decide (p.1 = 0), findDependencies p.2 sortedConcepts⟩),
        formatMinutesToTime totalMinutes,
        some sortedConcepts.length,
        some (calculateDifficultyDistribution sortedConcepts)⟩

/-- The fields of a JS `File` object read by `validateFile`. -/
structure JsFile where
  size : Nat
  type : String
deriving DecidableEq, Repr

/-- The `{ isValid, error }` result of `validateFile`. -/
structure ValidationResult where
  isValid : Bool
  error : Option String
deriving DecidableEq, Repr

/-- The `allowedTypes` array declared in `validateFile`. -/
def allowedTypes : List String :=
  ["text/plain", "text/markdown", "application/json", "text/csv", "application/pdf"]

/-- JS `t.split('/')[0]`: the characters before the first slash. -/
def mimeMainPart (t : String) : List Char :=
  t.toList.takeWhile (fun c => c != '/')

/-- Embeds `validateFile`: absent file and oversize are rejected, and the
type test is `allowedTypes?.some(type => file?.type?.includes(type?.split('/')?.[0]))`
— substring containment of the main part, not allow-list membership. -/
def validateFile (file : Option JsFile) : ValidationResult :=
  match file with
  | none => ⟨false, some "No file provided"⟩
  | some f =>
    if f.size > 10 * 1024 * 1024 then ⟨false, some "File size exceeds 10MB limit"⟩
    else if !(allowedTypes.any (fun t => listIncludes f.type.toList (mimeMainPart t))) then
      ⟨false, some "Unsupported file type"⟩
    else ⟨true, none⟩

/-- A generated question; `number` is the only field the shuffle
rewrites, the remaining fields stand for the untouched semantic content
(id, answers, question text, concept link). -/
structure Question where
  id : String
  conceptId : String
  content : String
  answers : List String
  number : Nat
deriving DecidableEq, Repr

/-- The generation options object passed to
`generateQuestionsForConcept`, after its defaulting destructuring
(`questionCount = 5`, `questionTypes = [...]`,
`difficultyLevel = concept?.difficulty`, `includeExplanations = true`). -/
structure GenOptions where
  questionCount : Nat
  questionTypes : List String
  difficultyLevel : Option String
  includeExplanations : Bool
deriving DecidableEq, Repr

/-- The default `questionTypes` of `generateQuestionsForConcept`. -/
def defaultQuestionTypes : List String :=
  ["multiple_choice", "true_false", "short_answer"]

/-- One issued generation call of `generateAdaptiveQuestions`: the
concept together with the (defaulted) options it is called with. -/
structure Request where
  concept : Concept
  options : GenOptions
deriving DecidableEq, Repr

/-- `[a[i], a[j]] = [a[j], a[i]]` on a list: exchange positions `i` and
`j`, a no-op when either index is out of range. -/
def swapL (l : List α) (i j : Nat) : List α :=
  match l.get? i, l.get? j with
  | some x, some y => (l.set i y).set j x
  | _, _ => l

/-- The Fisher-Yates loop of `shuffleQuestions`, counting `i` down to 1;
`rnd i % (i + 1)` models `Math.floor(Math.random() * (i + 1))`, which is
always in `[0, i]` — every sequence of index draws is realised by some
`rnd`. -/
def fyLoop (rnd : Nat → Nat) : Nat → List α → List α
  | 0, l => l
  | i + 1, l => fyLoop rnd i (swapL l (i + 1) (rnd (i + 1) % (i + 2)))

/-- A question with its `number` field zeroed: the part of a question the
shuffle must not change. -/
def stripNumber (q : Question) : Question :=
  { q with number := 0 }

/-- Embeds `shuffleQuestions`: Fisher-Yates over a copy, then re-number
`1..N` in shuffled order. -/
def shuffleQuestions (rnd : Nat → Nat) (questions : List Question) : List Question :=
  let shuffled := fyLoop rnd (questions.length - 1) questions
  shuffled.enum.map (fun p => { p.2 with number := p.1 + 1 })

/-- The generation calls issued by `generateAdaptiveQuestions`, in push
order: up to 3 weak concepts at count 3 and adjusted difficulty, up to 2
of the original list at count 2 when not already weak, and one Advanced
question from the strongest concept when one exists.  (JS `includes`
compares references; structurally equal concepts have equal ids and
hence equal weakness, so list membership is observationally the same
test.) -/
def adaptiveRequests (concepts : List Concept) (perf : PerfMap) : List Request :=
  let weakConcepts := identifyWeakAreas concepts perf
  let strongConcepts := identifyStrongAreas concepts perf
  (weakConcepts.take 3).map (fun c =>
    ⟨c, ⟨3, defaultQuestionTypes, some (adjustDifficultyForPerformance c perf), true⟩⟩)
  ++ ((concepts.take 2).filter (fun c => decide (c ∉ weakConcepts))).map (fun c =>
    ⟨c, ⟨2, ["multiple_choice", "short_answer"], c.difficulty, true⟩⟩)
  ++ (match strongConcepts with
      | [] => []
      | s :: _ => [⟨s, ⟨1, defaultQuestionTypes, some "Advanced", true⟩⟩])

/-- `Promise.all` over the issued generation calls: resolves with every
per-call question set in call order, or rejects as soon as any call
rejects. -/
def collectAll (gqc : Concept → GenOptions → Except String (List Question)) :
    List Request → Except String (List (List Question))
  | [] => .ok []
  | r :: rs =>
    match gqc r.concept r.options, collectAll gqc rs with
    | .ok qs, .ok rest => .ok (qs :: rest)
    | .error e, _ => .error e
    | .ok _, .error e => .error e

/-- Embeds `generateAdaptiveQuestions` over an oracle `gqc` standing for
`generateQuestionsForConcept` (an AI call) and a random source `rnd` for
the shuffle; any rejection is caught and re-thrown as the fixed
operation-level error. -/
def generateAdaptiveQuestions (gqc : Concept → GenOptions → Except String (List Question))
    (rnd : Nat → Nat) (concepts : List Concept) (perf : PerfMap) :
    Except String (List Question) :=
  match collectAll gqc (adaptiveRequests concepts perf) with
  | .error _ => .error "Failed to generate adaptive questions"
  | .ok questionSets => .ok (shuffleQuestions rnd questionSets.flatten)

/-- The spec's description of `formatMinutesToTime`, stated in its own
words: `n<60` gives `"{n} min"`, an exact multiple of 60 gives
`"{h} hour"` for `h = 1` and `"{h} hours"` for `h > 1`, and anything
else gives `"{h}h {m}min"`. -/
def specFormatMinutesToTime (n : Nat) : String :=
  if n < 60 then toString n ++ " min"
  else if n % 60 = 0 then
    if n / 60 = 1 then "1 hour"
    else toString (n / 60) ++ " hours"
  else toString (n / 60) ++ "h " ++ toString (n % 60) ++ "min"

/-- Claim C5: `formatMinutesToTime` agrees with the spec's case analysis
on every natural number of minutes, and in particular on the four quoted
examples 45, 60, 120 and 90. -/
theorem formatMinutesToTime_correct :
    (∀ n : Nat, formatMinutesToTime n = specFormatMinutesToTime n)
    ∧ formatMinutesToTime 45 = "45 min"
    ∧ formatMinutesToTime 60 = "1 hour"
    ∧ formatMinutesToTime 120 = "2 hours"
    ∧ formatMinutesToTime 90 = "1h 30min" := by
  refine ⟨?_, by decide, by decide, by decide, by decide⟩
  intro n
  unfold formatMinutesToTime specFormatMinutesToTime
  by_cases h1 : n < 60
  · simp [h1]
  · simp only [if_neg h1]
    by_cases h2 : n % 60 = 0
    · simp only [h2, eq_self_iff_true, ite_true]
      by_cases h3 : n / 60 = 1
      · rw [h3]
        rfl
      · have h4 : n / 60 > 1 := by omega
        rw [if_pos h4, if_neg h3, String.append_assoc]
        congr 1
    · simp [h2]

theorem matchUnitAt_cases {cs u : List Char} (h : matchUnitAt cs = some u) :
    u.map Char.toLower = "min".toList ∨ u.map Char.toLower = "hour".toList ∨
      u.map Char.toLower = "hr".toList := by
  unfold matchUnitAt at h
  split_ifs at h with h1 h2 h3
  · cases h
    exact Or.inl h1
  · cases h
    exact Or.inr (Or.inl h2)
  · cases h
    exact Or.inr (Or.inr h3)

theorem matchTimeAt_cases {cs : List Char} {v : Nat} {u : List Char}
    (h : matchTimeAt cs = some (v, u)) :
    u.map Char.toLower = "min".toList ∨ u.map Char.toLower = "hour".toList ∨
      u.map Char.toLower = "hr".toList := by
  unfold matchTimeAt at h
  by_cases hd : (cs.takeWhile Char.isDigit).isEmpty
  · rw [if_pos hd] at h
    simp at h
  · rw [if_neg hd] at h
    cases hu : matchUnitAt ((cs.dropWhile Char.isDigit).dropWhile Char.isWhitespace) with
    | none =>
      rw [hu] at h
      simp at h
    | some u' =>
      rw [hu] at h
      simp only [Option.some.injEq, Prod.mk.injEq] at h
      obtain ⟨-, rfl⟩ := h
      exact matchUnitAt_cases hu

theorem findTimeMatch_cases :
    ∀ {cs : List Char} {v : Nat} {u : List Char}, findTimeMatch cs = some (v, u) →
      u.map Char.toLower = "min".toList ∨ u.map Char.toLower = "hour".toList ∨
        u.map Char.toLower = "hr".toList
  | [], _, _, h => by simp [findTimeMatch] at h
  | c :: rest, v, u, h => by
    cases hm : matchTimeAt (c :: rest) with
    | none =>
      simp only [findTimeMatch, hm] at h
      exact findTimeMatch_cases h
    | some r =>
      simp only [findTimeMatch, hm, Option.some.injEq] at h
      subst h
      exact matchTimeAt_cases hm

/-- The spec's description of `parseTimeToMinutes`, stated in its own
words: take the first `<integer> (min|hour|hr)` pattern
(case-insensitively); a `min` unit passes the integer through, an
`hour`/`hr` unit multiplies it by 60; absence of a match (including the
empty or missing string) yields the 15-minute default. -/
def specParseTimeToMinutes (timeString : Option String) : Nat :=
  match timeString with
  | none => 15
  | some s =>
    match findTimeMatch s.toList with
    | none => 15
    | some (value, unit) =>
      if unit.map Char.toLower = "min".toList then value else value * 60

/-- Claim C4: `parseTimeToMinutes` is total and agrees with the spec's
description on every input, and in particular on the four quoted
examples (`"45 min"`, `"2 hours"`, `"garbage"`, and a missing input). -/
theorem parseTimeToMinutes_correct :
    (∀ ts : Option String, parseTimeToMinutes ts = specParseTimeToMinutes ts)
    ∧ parseTimeToMinutes (some "45 min") = 45
    ∧ parseTimeToMinutes (some "2 hours") = 120
    ∧ parseTimeToMinutes (some "garbage") = 15
    ∧ parseTimeToMinutes none = 15 := by
  refine ⟨?_, by decide, by decide, by decide, rfl⟩
  intro ts
  match ts with
  | none => rfl
  | some s =>
    simp only [parseTimeToMinutes, specParseTimeToMinutes]
    by_cases hs : s = ""
    · subst hs
      rfl
    · rw [if_neg hs]
      cases hm : findTimeMatch s.toList with
      | none => rfl
      | some r =>
        obtain ⟨v, u, rfl⟩ : ∃ a b, r = (a, b) := ⟨r.1, r.2, rfl⟩
        rcases findTimeMatch_cases hm with h | h | h <;>
          simp [listIncludes, h,
            (by decide : ¬ ((['h', 'o', 'u', 'r'] : List Char) <:+: ['m', 'i', 'n'])),
            (by decide : ¬ ((['h', 'r'] : List Char) <:+: ['m', 'i', 'n'])),
            (by decide : (['h', 'o', 'u', 'r'] : List Char) <:+: ['h', 'o', 'u', 'r']),
            (by decide : ¬ ((['h', 'o', 'u', 'r'] : List Char) <:+: ['h', 'r'])),
            (by decide : (['h', 'r'] : List Char) <:+: ['h', 'r']),
            (by decide : (['h', 'o', 'u', 'r'] : List Char) ≠ ['m', 'i', 'n']),
            (by decide : (['h', 'r'] : List Char) ≠ ['m', 'i', 'n'])]

/-- Claim C10 counterexample: `"application/zip"` is not on the declared
allow-list, yet `validateFile` reports the file valid — the
`includes(type.split('/')[0])` test only checks that the type string
contains `"text"` or `"application"`. -/
theorem validateFile_claim_counterexample :
    ("application/zip" ∉ allowedTypes)
      ∧ validateFile (some ⟨0, "application/zip"⟩) = ⟨true, none⟩ := by
  constructor
  · decide
  · decide

theorem validateFile_type_test (ty : List Char) :
    (allowedTypes.any (fun t => listIncludes ty (mimeMainPart t)))
      = (listIncludes ty "text".toList || listIncludes ty "application".toList) := by
  have m1 : mimeMainPart "text/plain" = "text".toList := by decide
  have m2 : mimeMainPart "text/markdown" = "text".toList := by decide
  have m3 : mimeMainPart "application/json" = "application".toList := by decide
  have m4 : mimeMainPart "text/csv" = "text".toList := by decide
  have m5 : mimeMainPart "application/pdf" = "application".toList := by decide
  simp only [allowedTypes, List.any_cons, List.any_nil, m1, m2, m3, m4, m5, Bool.or_false]
  cases listIncludes ty "text".toList <;> cases listIncludes ty "application".toList <;> simp

/-- Claim C10 (amended): `validateFile` rejects an absent file and an
oversize file with the descriptive errors, and otherwise accepts exactly
the files whose type string contains `"text"` or `"application"` as a
substring — a strict superset of the declared allow-list (every
allow-listed type is accepted, but so is e.g. `application/zip`). -/
theorem validateFile_correct (file : Option JsFile) :
    ((validateFile file).isValid = true ↔
      ∃ f, file = some f ∧ f.size ≤ 10 * 1024 * 1024 ∧
        (listIncludes f.type.toList "text".toList = true ∨
          listIncludes f.type.toList "application".toList = true))
    ∧ validateFile none = ⟨false, some "No file provided"⟩
    ∧ (∀ f : JsFile, f.size > 10 * 1024 * 1024 →
        validateFile (some f) = ⟨false, some "File size exceeds 10MB limit"⟩)
    ∧ (∀ t ∈ allowedTypes, ∀ sz : Nat, sz ≤ 10 * 1024 * 1024 →
        (validateFile (some ⟨sz, t⟩)).isValid = true) := by
  have key : ∀ f : JsFile, (validateFile (some f)).isValid = true ↔
      f.size ≤ 10 * 1024 * 1024 ∧
        (listIncludes f.type.toList "text".toList = true ∨
          listIncludes f.type.toList "application".toList = true) := by
    intro f
    simp only [validateFile]
    by_cases hsz : f.size > 10 * 1024 * 1024
    · rw [if_pos hsz]
      simp
      omega
    · rw [if_neg hsz]
      rw [validateFile_type_test f.type.toList]
      cases h1 : listIncludes f.type.toList "text".toList <;>
        cases h2 : listIncludes f.type.toList "application".toList <;>
          simp <;> omega
  refine ⟨?_, rfl, ?_, ?_⟩
  · cases file with
    | none => simp [validateFile]
    | some f =>
      rw [key f]
      constructor
      · intro h
        exact ⟨f, rfl, h.1, h.2⟩
      · rintro ⟨f', hf', hsz, hty⟩
        cases hf'
        exact ⟨hsz, hty⟩
  · intro f hf
    simp only [validateFile]
    rw [if_pos hf]
  · intro t ht sz hsz
    have hmem : t = "text/plain" ∨ t = "text/markdown" ∨ t = "application/json" ∨
        t = "text/csv" ∨ t = "application/pdf" := by
      simpa [allowedTypes] using ht
    rw [key ⟨sz, t⟩]
    refine ⟨hsz, ?_⟩
    rcases hmem with rfl | rfl | rfl | rfl | rfl
    · exact Or.inl (by decide : listIncludes "text/plain".toList "text".toList = true)
    · exact Or.inl (by decide : listIncludes "text/markdown".toList "text".toList = true)
    · exact Or.inr (by decide : listIncludes "application/json".toList "application".toList = true)
    · exact Or.inl (by decide : listIncludes "text/csv".toList "text".toList = true)
    · exact Or.inr (by decide : listIncludes "application/pdf".toList "application".toList = true)

/-- Concrete instantiation of `validateFile_correct`: the oversize
rejection at 10 MiB + 1 byte, and acceptance of the off-list type
`application/zip`. -/
theorem validateFile_correct_witness :
    validateFile (some ⟨10485761, "text/plain"⟩)
        = ⟨false, some "File size exceeds 10MB limit"⟩
      ∧ (validateFile (some ⟨5, "application/zip"⟩)).isValid = true :=
  ⟨(validateFile_correct (some ⟨10485761, "text/plain"⟩)).2.2.1
      ⟨10485761, "text/plain"⟩ (by decide),
    ((validateFile_correct (some ⟨5, "application/zip"⟩)).1).mpr
      ⟨⟨5, "application/zip"⟩, rfl, by decide, Or.inr (by decide)⟩⟩

/-- Claim C3: the empty and the absent concept list both give an empty
pathway with total time `"0 min"`, and for a non-empty list the pathway
has one item per concept with `isUnlocked` true exactly at position 0. -/
theorem createLearningPathway_unlock (concepts : List Concept) :
    (createLearningPathway none).pathway = []
    ∧ (createLearningPathway none).totalEstimatedTime = "0 min"
    ∧ (createLearningPathway (some [])).pathway = []
    ∧ (createLearningPathway (some [])).totalEstimatedTime = "0 min"
    ∧ (concepts ≠ [] →
        (createLearningPathway (some concepts)).pathway.length = concepts.length
        ∧ ∀ i (h : i < (createLearningPathway (some concepts)).pathway.length),
            ((createLearningPathway (some concepts)).pathway.get ⟨i, h⟩).isUnlocked
              = decide (i = 0)) := by
  refine ⟨rfl, rfl, rfl, rfl, fun hne => ?_⟩
  have hemp : concepts.isEmpty = false := by
    cases concepts with
    | nil => exact absurd rfl hne
    | cons c cs => rfl
  constructor
  · simp [createLearningPathway, hemp, sortConceptsByDependency]
  · intro i h
    simp only [createLearningPathway, hemp, Bool.false_eq_true, if_false, List.get_eq_getElem,
      List.getElem_map, List.getElem_enum]

/-- Concrete instantiation of `createLearningPathway_unlock` on a
one-element list at position 0. -/
theorem createLearningPathway_unlock_witness :
    ((createLearningPathway (some [⟨"c1", "C", none, [], [], none⟩])).pathway.length = 1
      ∧ ∀ i (h : i < (createLearningPathway
            (some [⟨"c1", "C", none, [], [], none⟩])).pathway.length),
          ((createLearningPathway
            (some [⟨"c1", "C", none, [], [], none⟩])).pathway.get ⟨i, h⟩).isUnlocked
            = decide (i = 0)) :=
  (createLearningPathway_unlock [⟨"c1", "C", none, [], [], none⟩]).2.2.2.2
    (by simp)

/-- Claim C6: a concept with no performance record is always classified
weak and never strong, the weak list is sorted ascending by recorded
mastery (absent entries count as 0), and the strong list descending. -/
theorem identifyAreas_correct (concepts : List Concept) (perf : PerfMap) (c : Concept)
    (hc : c ∈ concepts) (habs : perf c.id = none) :
    c ∈ identifyWeakAreas concepts perf
    ∧ c ∉ identifyStrongAreas concepts perf
    ∧ (identifyWeakAreas concepts perf).Pairwise
        (fun a b => masteryOf perf a ≤ masteryOf perf b)
    ∧ (identifyStrongAreas concepts perf).Pairwise
        (fun a b => masteryOf perf b ≤ masteryOf perf a) := by
  refine ⟨?_, ?_, ?_, ?_⟩
  · simp [identifyWeakAreas, List.mem_filter, isWeakConcept, habs, hc]
  · simp [identifyStrongAreas, List.mem_filter, isStrongConcept, masteryOf, habs, hc]
  · exact (List.sorted_mergeSort (weakLE_trans perf) (weakLE_total perf)
      (concepts.filter (isWeakConcept perf))).imp
      (fun hab => by
        simpa only [weakLE, decide_eq_true_eq, sub_nonpos] using hab)
  · exact (List.sorted_mergeSort (strongLE_trans perf) (strongLE_total perf)
      (concepts.filter (isStrongConcept perf))).imp
      (fun hab => by
        simpa only [strongLE, decide_eq_true_eq, sub_nonpos] using hab)

/-- Concrete instantiation of `identifyAreas_correct`: one concept, empty
performance map. -/
theorem identifyAreas_correct_witness :
    (⟨"c1", "C", none, [], [], none⟩ : Concept)
        ∈ identifyWeakAreas [⟨"c1", "C", none, [], [], none⟩] (fun _ => none)
      ∧ (⟨"c1", "C", none, [], [], none⟩ : Concept)
        ∉ identifyStrongAreas [⟨"c1", "C", none, [], [], none⟩] (fun _ => none)
      ∧ (identifyWeakAreas [⟨"c1", "C", none, [], [], none⟩] (fun _ => none)).Pairwise
          (fun a b => masteryOf (fun _ => none) a ≤ masteryOf (fun _ => none) b)
      ∧ (identifyStrongAreas [⟨"c1", "C", none, [], [], none⟩] (fun _ => none)).Pairwise
          (fun a b => masteryOf (fun _ => none) b ≤ masteryOf (fun _ => none) a) :=
  identifyAreas_correct [⟨"c1", "C", none, [], [], none⟩] (fun _ => none)
    ⟨"c1", "C", none, [], [], none⟩ (by simp) rfl

/-- The concept and performance map of the concrete weak/strong overlap:
a recorded entry with `attempts = 0` and `masteryLevel = 80`. -/
def overlapConcept : Concept := ⟨"c1", "C1", none, [], [], none⟩

/-- Performance map whose every entry has 0 attempts and mastery 80. -/
def overlapPerf : PerfMap := fun _ => some ⟨80, 0⟩

/-- Claim C7: a concept whose performance entry has `attempts = 0` and
`masteryLevel ≥ 80` is classified both weak (via the `attempts === 0`
disjunct) and strong (mastery ≥ 80); concretely, such a concept is then
requested twice by the adaptive mix — once as a weak concept (count 3)
and once as the strongest concept (count 1, Advanced). -/
theorem weakStrong_overlap (concepts : List Concept) (perf : PerfMap) (c : Concept)
    (p : Perf) (hc : c ∈ concepts) (hp : perf c.id = some p)
    (hatt : p.attempts = 0) (hm : 80 ≤ p.masteryLevel) :
    (c ∈ identifyWeakAreas concepts perf ∧ c ∈ identifyStrongAreas concepts perf)
    ∧ adaptiveRequests [overlapConcept] overlapPerf =
        [⟨overlapConcept, ⟨3, defaultQuestionTypes, some "Advanced", true⟩⟩,
          ⟨overlapConcept, ⟨1, defaultQuestionTypes, some "Advanced", true⟩⟩] := by
  have hw : identifyWeakAreas [overlapConcept] overlapPerf = [overlapConcept] := by
    simp [identifyWeakAreas, isWeakConcept, overlapPerf]
  have hs : identifyStrongAreas [overlapConcept] overlapPerf = [overlapConcept] := by
    simp [identifyStrongAreas, isStrongConcept, masteryOf, overlapPerf]
  refine ⟨⟨?_, ?_⟩, ?_⟩
  · simp [identifyWeakAreas, List.mem_filter, isWeakConcept, hp, hatt, hc]
  · simp [identifyStrongAreas, List.mem_filter, isStrongConcept, masteryOf, hp, hm, hc]
  · simp [adaptiveRequests, hw, hs, adjustDifficultyForPerformance, overlapPerf]

/-- Concrete instantiation of `weakStrong_overlap` at `overlapConcept`
and `overlapPerf`. -/
theorem weakStrong_overlap_witness :
    ((overlapConcept ∈ identifyWeakAreas [overlapConcept] overlapPerf
        ∧ overlapConcept ∈ identifyStrongAreas [overlapConcept] overlapPerf)
      ∧ adaptiveRequests [overlapConcept] overlapPerf =
          [⟨overlapConcept, ⟨3, defaultQuestionTypes, some "Advanced", true⟩⟩,
            ⟨overlapConcept, ⟨1, defaultQuestionTypes, some "Advanced", true⟩⟩]) :=
  weakStrong_overlap [overlapConcept] overlapPerf overlapConcept ⟨80, 0⟩
    (by simp) rfl rfl (by decide)

/-- Claim C2: after `sortConceptsByDependency`, difficulty ranks are
non-decreasing, adjacent equal-rank pairs have non-decreasing
prerequisite counts, and the sort is stable: for every rank/count key the
subsequence of concepts with that key is exactly the input's subsequence
with that key, in input order. -/
theorem sortConcepts_correct (concepts : List Concept) :
    (∀ i (h : i + 1 < (sortConceptsByDependency concepts).length),
        diffRank ((sortConceptsByDependency concepts).get ⟨i, Nat.lt_of_succ_lt h⟩)
            ≤ diffRank ((sortConceptsByDependency concepts).get ⟨i + 1, h⟩)
          ∧ (diffRank ((sortConceptsByDependency concepts).get ⟨i, Nat.lt_of_succ_lt h⟩)
                = diffRank ((sortConceptsByDependency concepts).get ⟨i + 1, h⟩) →
              ((sortConceptsByDependency concepts).get
                  ⟨i, Nat.lt_of_succ_lt h⟩).prerequisites.length
                ≤ ((sortConceptsByDependency concepts).get ⟨i + 1, h⟩).prerequisites.length))
    ∧ (∀ r p : Nat,
        (sortConceptsByDependency concepts).filter
            (fun c => decide (diffRank c = r) && decide (c.prerequisites.length = p))
          = concepts.filter
            (fun c => decide (diffRank c = r) && decide (c.prerequisites.length = p))) := by
  constructor
  · have hpair : (sortConceptsByDependency concepts).Pairwise (fun a b => conceptLE a b = true) :=
      List.sorted_mergeSort conceptLE_trans conceptLE_total concepts
    rw [List.pairwise_iff_getElem] at hpair
    intro i h
    have hle := hpair i (i + 1) (Nat.lt_of_succ_lt h) h (Nat.lt_succ_self i)
    rw [conceptLE_iff] at hle
    simp only [List.get_eq_getElem]
    omega
  · intro r p
    have hq : ∀ a b : Concept,
        (decide (diffRank a = r) && decide (a.prerequisites.length = p)) = true →
        (decide (diffRank b = r) && decide (b.prerequisites.length = p)) = true →
        conceptLE a b = true := by
      intro a b ha hb
      simp only [Bool.and_eq_true, decide_eq_true_eq] at ha hb
      rw [conceptLE_iff]
      omega
    have hA : (concepts.filter
        (fun c => decide (diffRank c = r) && decide (c.prerequisites.length = p))).Pairwise
          (fun a b => conceptLE a b = true) :=
      List.pairwise_of_forall_mem_list
        (fun a ha b hb => hq a b (List.mem_filter.mp ha).2 (List.mem_filter.mp hb).2)
    have h1 := List.sublist_mergeSort conceptLE_trans conceptLE_total hA
      (List.filter_sublist concepts)
    have h2 : List.Perm
        ((sortConceptsByDependency concepts).filter
          (fun c => decide (diffRank c = r) && decide (c.prerequisites.length = p)))
        (concepts.filter
          (fun c => decide (diffRank c = r) && decide (c.prerequisites.length = p))) :=
      (List.mergeSort_perm concepts conceptLE).filter _
    have h4 := h1.filter
      (fun c => decide (diffRank c = r) && decide (c.prerequisites.length = p))
    rw [List.filter_filter] at h4
    simp only [Bool.and_self] at h4
    exact (h4.eq_of_length h2.length_eq.symm).symm

/-- A Beginner demo concept for concrete instantiations. -/
def demoA : Concept := ⟨"a", "A", some "Beginner", [], [], none⟩

/-- An Advanced demo concept for concrete instantiations. -/
def demoB : Concept := ⟨"b", "B", some "Advanced", [], [], none⟩

/-- Concrete instantiation of `sortConcepts_correct` on a two-element
list, at adjacent positions 0 and 1 and at key (rank 1, 0 prerequisites). -/
theorem sortConcepts_correct_witness :
    (diffRank ((sortConceptsByDependency [demoA, demoB]).get
          ⟨0, by simp [sortConceptsByDependency]⟩)
        ≤ diffRank ((sortConceptsByDependency [demoA, demoB]).get
          ⟨0 + 1, by simp [sortConceptsByDependency]⟩))
    ∧ (sortConceptsByDependency [demoA, demoB]).filter
          (fun c => decide (diffRank c = 1) && decide (c.prerequisites.length = 0))
        = [demoA, demoB].filter
          (fun c => decide (diffRank c = 1) && decide (c.prerequisites.length = 0)) :=
  ⟨((sortConcepts_correct [demoA, demoB]).1 0 (by simp [sortConceptsByDependency])).1,
    (sortConcepts_correct [demoA, demoB]).2 1 0⟩

theorem getElem_cons_set_perm :
    ∀ (t : List α) (k : Nat) (hk : k < t.length) (a : α),
      List.Perm (t.get ⟨k, hk⟩ :: t.set k a) (a :: t)
  | b :: t', 0, _, a => List.Perm.swap a b t'
  | b :: t', k + 1, hk, a =>
    (List.Perm.swap b (t'.get ⟨k, Nat.lt_of_succ_lt_succ hk⟩) (t'.set k a)).trans
      (((getElem_cons_set_perm t' k (Nat.lt_of_succ_lt_succ hk) a).cons b).trans
        (List.Perm.swap a b t'))

theorem set_set_perm_lt :
    ∀ (l : List α) (i j : Nat), i < j → ∀ (hi : i < l.length) (hj : j < l.length),
      List.Perm ((l.set i (l.get ⟨j, hj⟩)).set j (l.get ⟨i, hi⟩)) l
  | [], _, _, _, hi, _ => absurd hi (by simp)
  | b :: t, 0, j + 1, _, _, hj =>
    getElem_cons_set_perm t j (Nat.lt_of_succ_lt_succ hj) b
  | _ :: t, i + 1, j + 1, hlt, hi, hj =>
    (set_set_perm_lt t i j (Nat.lt_of_succ_lt_succ hlt)
      (Nat.lt_of_succ_lt_succ hi) (Nat.lt_of_succ_lt_succ hj)).cons _

theorem set_get_self (l : List α) (i : Nat) (h : i < l.length) :
    l.set i (l.get ⟨i, h⟩) = l := by
  apply List.ext_getElem
  · simp
  · intro n h1 h2
    rw [List.getElem_set]
    split
    · simp_all
    · rfl

theorem swapL_perm (l : List α) (i j : Nat) : List.Perm (swapL l i j) l := by
  unfold swapL
  split
  · rename_i x y hx hy
    obtain ⟨hi, hxi⟩ := List.get?_eq_some.mp hx
    obtain ⟨hj, hyj⟩ := List.get?_eq_some.mp hy
    subst hxi
    subst hyj
    rcases Nat.lt_trichotomy i j with hij | hij | hij
    · exact set_set_perm_lt l i j hij hi hj
    · subst hij
      rw [List.set_set, set_get_self l i hi]
    · rw [List.set_comm _ _ _ (Nat.ne_of_gt hij)]
      exact set_set_perm_lt l j i hij hj hi
  · exact List.Perm.refl l

theorem fyLoop_perm (rnd : Nat → Nat) :
    ∀ (n : Nat) (l : List α), List.Perm (fyLoop rnd n l) l
  | 0, l => List.Perm.refl l
  | n + 1, l =>
    (fyLoop_perm rnd n (swapL l (n + 1) (rnd (n + 1) % (n + 2)))).trans
      (swapL_perm l (n + 1) (rnd (n + 1) % (n + 2)))

theorem shuffleQuestions_length (rnd : Nat → Nat) (qs : List Question) :
    (shuffleQuestions rnd qs).length = qs.length := by
  unfold shuffleQuestions
  simp only [List.length_map, List.enum_length]
  exact (fyLoop_perm rnd (qs.length - 1) qs).length_eq

theorem shuffleQuestions_number (rnd : Nat → Nat) (qs : List Question)
    (i : Nat) (h : i < (shuffleQuestions rnd qs).length) :
    ((shuffleQuestions rnd qs).get ⟨i, h⟩).number = i + 1 := by
  have h' := h
  unfold shuffleQuestions at h' ⊢
  simp only [List.get_eq_getElem, List.getElem_map,
    List.getElem_enum]

theorem shuffleQuestions_strip_perm (rnd : Nat → Nat) (qs : List Question) :
    List.Perm ((shuffleQuestions rnd qs).map stripNumber) (qs.map stripNumber) := by
  unfold shuffleQuestions
  rw [List.map_map]
  have hfun : (stripNumber ∘ fun p : Nat × Question => { p.2 with number := p.1 + 1 })
      = stripNumber ∘ Prod.snd := by
    funext p
    rfl
  rw [hfun, ← List.map_map, List.enum_map_snd]
  exact (fyLoop_perm rnd (qs.length - 1) qs).map stripNumber

/-- Claim C8: for every random source, `shuffleQuestions` preserves the
length, re-numbers the result `1..N` in order, and leaves everything but
the `number` field a permutation of the input. -/
theorem shuffleQuestions_correct (rnd : Nat → Nat) (qs : List Question) :
    (shuffleQuestions rnd qs).length = qs.length
    ∧ (∀ i (h : i < (shuffleQuestions rnd qs).length),
        ((shuffleQuestions rnd qs).get ⟨i, h⟩).number = i + 1)
    ∧ List.Perm ((shuffleQuestions rnd qs).map stripNumber) (qs.map stripNumber) :=
  ⟨shuffleQuestions_length rnd qs,
    fun i h => shuffleQuestions_number rnd qs i h,
    shuffleQuestions_strip_perm rnd qs⟩

/-- A fixed random source (always draws index 0) for concrete
instantiations. -/
def demoRnd : Nat → Nat := fun _ => 0

/-- Concrete instantiation of `shuffleQuestions_correct` on a two-element
question list at position 1. -/
theorem shuffleQuestions_correct_witness :
    ((shuffleQuestions demoRnd
        [⟨"q1", "c1", "Q1", ["a"], 7⟩, ⟨"q2", "c1", "Q2", ["b"], 9⟩]).get
      ⟨1, by decide⟩).number = 1 + 1 :=
  (shuffleQuestions_correct demoRnd
      [⟨"q1", "c1", "Q1", ["a"], 7⟩, ⟨"q2", "c1", "Q2", ["b"], 9⟩]).2.1 1 (by decide)

theorem collectAll_error (gqc : Concept → GenOptions → Except String (List Question)) :
    ∀ (rs : List Request) (r : Request), r ∈ rs →
      ∀ e, gqc r.concept r.options = .error e → ∃ e', collectAll gqc rs = .error e'
  | [], r, hr, _, _ => absurd hr (by simp)
  | r' :: rs, r, hr, e, he => by
    rcases List.mem_cons.mp hr with rfl | hmem
    · refine ⟨e, ?_⟩
      unfold collectAll
      rw [he]
    · obtain ⟨e', he'⟩ := collectAll_error gqc rs r hmem e he
      unfold collectAll
      rw [he']
      cases hfst : gqc r'.concept r'.options with
      | ok qs => exact ⟨e', rfl⟩
      | error e'' => exact ⟨e'', rfl⟩

/-- Claim C9: if any one issued generation call rejects, the whole
adaptive generation rejects with the coarse operation-level error and no
partial question set is produced. -/
theorem generateAdaptiveQuestions_error
    (gqc : Concept → GenOptions → Except String (List Question)) (rnd : Nat → Nat)
    (concepts : List Concept) (perf : PerfMap) (r : Request) (e : String)
    (hr : r ∈ adaptiveRequests concepts perf)
    (he : gqc r.concept r.options = .error e) :
    generateAdaptiveQuestions gqc rnd concepts perf
      = .error "Failed to generate adaptive questions" := by
  obtain ⟨e', he'⟩ := collectAll_error gqc (adaptiveRequests concepts perf) r hr e he
  unfold generateAdaptiveQuestions
  rw [he']

/-- The all-absent performance map (no concept has a record). -/
def demoPerfNone : PerfMap := fun _ => none

/-- A generation oracle that always rejects. -/
def gqcFail : Concept → GenOptions → Except String (List Question) :=
  fun _ _ => .error "boom"

/-- Concrete instantiation of `generateAdaptiveQuestions_error`: one
concept with no performance record, an oracle that always rejects. -/
theorem generateAdaptiveQuestions_error_witness :
    generateAdaptiveQuestions gqcFail demoRnd [overlapConcept] demoPerfNone
      = .error "Failed to generate adaptive questions" :=
  generateAdaptiveQuestions_error gqcFail demoRnd [overlapConcept] demoPerfNone
    ⟨overlapConcept, ⟨3, defaultQuestionTypes, some "Beginner", true⟩⟩ "boom"
    (by simp [adaptiveRequests, identifyWeakAreas, isWeakConcept, demoPerfNone,
      adjustDifficultyForPerformance])
    rfl

theorem collectAll_ok (gqc : Concept → GenOptions → Except String (List Question)) :
    ∀ (rs : List Request),
      (∀ r ∈ rs, ∃ qs, gqc r.concept r.options = Except.ok qs
        ∧ qs.length = r.options.questionCount) →
      ∃ sets, collectAll gqc rs = Except.ok sets
        ∧ sets.flatten.length = (rs.map (fun r => r.options.questionCount)).sum
  | [], _ => ⟨[], rfl, rfl⟩
  | r :: rs, h => by
    obtain ⟨qs, hok, hlen⟩ := h r (by simp)
    obtain ⟨sets, hok', hlen'⟩ := collectAll_ok gqc rs (fun r' hr' => h r' (by simp [hr']))
    refine ⟨qs :: sets, ?_, ?_⟩
    · unfold collectAll
      rw [hok, hok']
    · simp [hlen, hlen']

/-- The adaptive mix exactly as the spec's words describe it: up to the
first 3 weak concepts at 3 questions each, generated at the adjusted (not
static) difficulty; up to the first 2 concepts of the original unfiltered
list at 2 questions each when not already in the weak set; and one
Advanced question from the single strongest concept when any strong
concept exists. -/
def specAdaptiveRequests (concepts : List Concept) (perf : PerfMap) : List Request :=
  ((identifyWeakAreas concepts perf).take 3).map (fun c =>
    ⟨c, ⟨3, defaultQuestionTypes, some (adjustDifficultyForPerformance c perf), true⟩⟩)
  ++ ((concepts.take 2).filter
        (fun c => decide (c ∉ identifyWeakAreas concepts perf))).map (fun c =>
      ⟨c, ⟨2, ["multiple_choice", "short_answer"], c.difficulty, true⟩⟩)
  ++ ((identifyStrongAreas concepts perf).take 1).map (fun strongest =>
      ⟨strongest, ⟨1, defaultQuestionTypes, some "Advanced", true⟩⟩)

/-- Claim C1: when every issued generation call succeeds with the
requested number of questions, the adaptive assembly issues exactly the
spec's request mix and returns all of the generated questions — no
duplicates, no drops (a permutation of the concatenated per-call sets up
to re-numbering), of total length the sum of the requested
`questionCount`s. -/
theorem generateAdaptiveQuestions_correct
    (gqc : Concept → GenOptions → Except String (List Question)) (rnd : Nat → Nat)
    (concepts : List Concept) (perf : PerfMap)
    (hok : ∀ r ∈ adaptiveRequests concepts perf,
      ∃ qs, gqc r.concept r.options = Except.ok qs
        ∧ qs.length = r.options.questionCount) :
    adaptiveRequests concepts perf = specAdaptiveRequests concepts perf
    ∧ ∃ sets out,
        collectAll gqc (adaptiveRequests concepts perf) = Except.ok sets
        ∧ generateAdaptiveQuestions gqc rnd concepts perf = Except.ok out
        ∧ out.length
            = ((adaptiveRequests concepts perf).map (fun r => r.options.questionCount)).sum
        ∧ List.Perm (out.map stripNumber) (sets.flatten.map stripNumber) := by
  constructor
  · unfold adaptiveRequests specAdaptiveRequests
    cases identifyStrongAreas concepts perf with
    | nil => rfl
    | cons s t => rfl
  · obtain ⟨sets, hcoll, hlen⟩ := collectAll_ok gqc _ hok
    refine ⟨sets, shuffleQuestions rnd sets.flatten, hcoll, ?_, ?_, ?_⟩
    · unfold generateAdaptiveQuestions
      rw [hcoll]
    · rw [shuffleQuestions_length, hlen]
    · exact shuffleQuestions_strip_perm rnd sets.flatten

/-- A generation oracle that returns exactly the requested number of
placeholder questions. -/
def gqcOk : Concept → GenOptions → Except String (List Question) :=
  fun c o => .ok (List.replicate o.questionCount ⟨"q", c.id, "Q", [], 0⟩)

/-- Concrete instantiation of `generateAdaptiveQuestions_correct` with an
oracle granting every request. -/
theorem generateAdaptiveQuestions_correct_witness :
    adaptiveRequests [overlapConcept] demoPerfNone
        = specAdaptiveRequests [overlapConcept] demoPerfNone
    ∧ ∃ sets out,
        collectAll gqcOk (adaptiveRequests [overlapConcept] demoPerfNone) = Except.ok sets
        ∧ generateAdaptiveQuestions gqcOk demoRnd [overlapConcept] demoPerfNone
            = Except.ok out
        ∧ out.length = ((adaptiveRequests [overlapConcept] demoPerfNone).map
            (fun r => r.options.questionCount)).sum
        ∧ List.Perm (out.map stripNumber) (sets.flatten.map stripNumber) :=
  generateAdaptiveQuestions_correct gqcOk demoRnd [overlapConcept] demoPerfNone
    (fun r _ =>
      ⟨List.replicate r.options.questionCount ⟨"q", r.concept.id, "Q", [], 0⟩, rfl,
        List.length_replicate _ _⟩)

end ALP
